import Mathlib

/-!
Shallow embedding of the process-supervision and command-adapter code of the
ipfs-cli-wrapper repository (package `ipfscliwrapper` plus its `internal/oskit`
helper package), together with theorems settling the frozen claims about it.

The Go code under scrutiny is effectful: it spawns OS processes, sends
signals, waits on children and touches the filesystem.  The embedding makes
every such interaction explicit: the outcomes of OS calls (a `pgrep` run, a
`Process.Kill`, a `Wait`, an `os.Create`, ...) are inputs drawn from small
inductive result types, and the actions the code performs are recorded in an
effect trace returned alongside the ordinary result.  Pure helpers
(`strings.Fields`, `strings.TrimSpace`, `strings.Contains`, `strconv.Atoi`)
are translated to structurally recursive Lean functions over character lists.
-/

namespace IpfsCliWrapper

/-- Whitespace predicate standing in for Go `unicode.IsSpace` on the
characters that actually occur in command output (spaces, tabs, newlines). -/
def goIsSpace (c : Char) : Bool := c.isWhitespace

/-- Embedding of Go `strings.TrimSpace`: drop leading and trailing
whitespace. -/
def trimSpace (s : String) : String :=
  String.mk (((s.data.dropWhile goIsSpace).reverse.dropWhile goIsSpace).reverse)

/-- Split a character list at characters satisfying `p`, keeping (possibly
empty) groups between separators. -/
def splitChars (p : Char → Bool) : List Char → List (List Char)
  | [] => [[]]
  | c :: cs =>
    let r := splitChars p cs
    if p c then [] :: r
    else
      match r with
      | [] => [[c]]
      | g :: gs => (c :: g) :: gs

/-- Embedding of Go `strings.Fields`: split around runs of whitespace,
producing only the non-empty tokens. -/
def fields (s : String) : List String :=
  ((splitChars goIsSpace s.data).map String.mk).filter (fun t => t ≠ "")

/-- Substring containment on character lists: some suffix of `l` has `pat`
as a leading segment. -/
def listContainsSub (pat : List Char) : List Char → Bool
  | [] => pat.isPrefixOf ([] : List Char)
  | c :: rest => pat.isPrefixOf (c :: rest) || listContainsSub pat rest

/-- Embedding of Go `strings.Contains s pat`. -/
def strContains (s pat : String) : Bool :=
  listContainsSub pat.data s.data

/-- Accumulate a decimal numeral; any non-digit character aborts.  Helper for
the `strconv.Atoi` embedding. -/
def digitsToNat : List Char → Nat → Option Nat
  | [], acc => some acc
  | c :: cs, acc =>
    if c.isDigit then digitsToNat cs (acc * 10 + (c.toNat - 48)) else none

/-- Embedding of Go `strconv.Atoi`: an optional sign followed by at least one
decimal digit (machine-word overflow is not modelled; `pgrep` process ids are
far below it). -/
def atoi? (s : String) : Option Int :=
  match s.data with
  | [] => none
  | c :: rest =>
    if c = '-' then
      match rest with
      | [] => none
      | _ => (digitsToNat rest 0).map (fun n => -(n : Int))
    else if c = '+' then
      match rest with
      | [] => none
      | _ => (digitsToNat rest 0).map (fun n => (n : Int))
    else (digitsToNat (c :: rest) 0).map (fun n => (n : Int))

/-- Every token produced by `fields` is non-empty. -/
theorem fields_ne_empty (s : String) : ∀ t ∈ fields s, t ≠ "" := by
  intro t ht
  have := List.mem_filter.mp ht
  simpa using this.2

/-! ### Outcomes of OS interactions

`CmdRunResult` is the outcome of `cmd.Run()` / `cmd.CombinedOutput()` style
invocations: either the process ran and exited with status zero (`ok`,
carrying captured standard output), or it ran and exited non-zero (Go's
`*exec.ExitError`, carrying the exit code), or the invocation failed for a
different reason (binary missing, fork failure, ...). -/
inductive CmdRunResult where
  | ok (stdout : String)
  | exitFailure (exitCode : Int) (msg : String)
  | otherFailure (msg : String)
deriving DecidableEq

/-- Outcome of `exec.Cmd.Wait()`: success, an `*exec.ExitError` carrying
`ProcessState.ExitCode()` (which is `-1` when the process died by signal), or
a wait error of any other kind. -/
inductive WaitResult where
  | ok
  | exitFailure (exitCode : Int) (msg : String)
  | otherFailure (msg : String)
deriving DecidableEq

/-! ### oskit: IsProgramRunning and TerminateProgram -/

/-- Embedding of `oskit.IsProgramRunning` (internal/oskit): runs
`pgrep -x name`; on exit status zero the program counts as running when the
trimmed output is non-empty; a `pgrep` exit status of 1 means "no process
found" and is not an error; every other failure is returned to the caller. -/
def IsProgramRunning (pgrepRun : CmdRunResult) : Bool × Option String :=
  match pgrepRun with
  | .ok out => (!(trimSpace out == ""), none)
  | .exitFailure code msg => if code = 1 then (false, none) else (false, some msg)
  | .otherFailure msg => (false, some msg)

/-- Actions the shutdown paths can perform against the operating system. -/
inductive ShutdownAction where
  | killChild
  | waitChild
  | pgrepLookup
  | sigterm (pid : Int)
deriving DecidableEq

/-- Loop body of `oskit.TerminateProgram`: for each `pgrep` output token,
parse it as a process id (`strconv.Atoi`; a parse failure aborts with an
error, keeping the signals already sent) and send SIGTERM to that id.  A
signal delivery failure is only printed and the loop continues, so it does
not influence the trace or the returned error. -/
def signalPids : List String → List ShutdownAction × Option String
  | [] => ([], none)
  | p :: rest =>
    match atoi? p with
    | none => ([], some ("Failed to parse PID: " ++ p ++ "\n"))
    | some pid =>
      let r := signalPids rest
      (ShutdownAction.sigterm pid :: r.1, r.2)

/-- Embedding of `oskit.TerminateProgram` (internal/oskit): run
`pgrep -x name`; any run failure (including "no process found", which exits
1) is an error; otherwise split the output into process-id tokens and SIGTERM
each of them in order. -/
def TerminateProgram (pgrepRun : CmdRunResult) : List ShutdownAction × Option String :=
  match pgrepRun with
  | .ok out => signalPids (fields out)
  | .exitFailure _ msg => ([], some ("Failed to find process: " ++ msg ++ "\n"))
  | .otherFailure msg => ([], some ("Failed to find process: " ++ msg ++ "\n"))

/-! ### The wrapper state and the daemon supervisor -/

/-- The mutable flags of the `ipfsCliWrapper` struct that the lifecycle
functions read and write.  The remaining fields (logger, command handle,
stdout pipe, warmup duration, os, arch) are either pure configuration or
opaque OS handles represented by the interaction outcomes below. -/
structure WrapperState where
  isDaemonRunning : Bool
  isDaemonRunningContinously : Bool
deriving DecidableEq

/-- Actions `StartDaemonInBackground` can perform. -/
inductive StartAction where
  | checkRunning
  | openDevNull
  | startChild
  | sleepWarmup
deriving DecidableEq

/-- Outcomes of the OS interactions `StartDaemonInBackground` may attempt:
the `pgrep` run behind `oskit.IsProgramRunning`, the `os.Open(os.DevNull)`
call of the continuous-mode detach block, and `ipfsDaemonCmd.Start()`. -/
structure StartEnv where
  pgrepRun : CmdRunResult
  devNullErr : Option String
  startErr : Option String
deriving DecidableEq

/-- Embedding of `(*ipfsCliWrapper).StartDaemonInBackground`: adopt Running
if a same-named process already exists; surface a lookup failure; in
continuous mode detach the child (new session, streams to the null device);
start the child; mark Running and sleep out the warmup delay. -/
def StartDaemonInBackground (w : WrapperState) (env : StartEnv) :
    WrapperState × List StartAction × Option String :=
  let pr := IsProgramRunning env.pgrepRun
  if pr.1 || pr.2.isSome then
    if pr.1 then
      ({ w with isDaemonRunning := true }, [StartAction.checkRunning], none)
    else
      (w, [StartAction.checkRunning],
        some ("is program running error: " ++ pr.2.getD ""))
  else
    let detach : List StartAction :=
      if w.isDaemonRunningContinously then [StartAction.openDevNull] else []
    if w.isDaemonRunningContinously && env.devNullErr.isSome then
      (w, StartAction.checkRunning :: detach, env.devNullErr)
    else
      match env.startErr with
      | some m =>
        (w, StartAction.checkRunning :: detach ++ [StartAction.startChild],
          some ("Error starting command: " ++ m ++ "\n"))
      | none =>
        ({ w with isDaemonRunning := true },
          StartAction.checkRunning :: detach
            ++ [StartAction.startChild, StartAction.sleepWarmup], none)

/-- Outcomes of the OS interactions of the ephemeral shutdown path:
`ipfsDaemonCmd.Process.Kill()` and `ipfsDaemonCmd.Wait()`. -/
structure ShutdownEnv where
  killErr : Option String
  wait : WaitResult
deriving DecidableEq

/-- Embedding of `(*ipfsCliWrapper).ShutdownDaemon`: a pure no-op in
continuous mode; otherwise clear the running flag, kill the child, wait for
it, and treat a wait failure whose exit code is `-1` (death by signal) as
success. -/
def ShutdownDaemon (w : WrapperState) (env : ShutdownEnv) :
    WrapperState × List ShutdownAction × Option String :=
  if w.isDaemonRunningContinously then
    (w, [], none)
  else
    let w' := { w with isDaemonRunning := false }
    match env.killErr with
    | some m =>
      (w', [ShutdownAction.killChild], some ("Error killing process: " ++ m ++ "\n"))
    | none =>
      match env.wait with
      | .ok => (w', [ShutdownAction.killChild, ShutdownAction.waitChild], none)
      | .exitFailure code m =>
        if code = -1 then
          (w', [ShutdownAction.killChild, ShutdownAction.waitChild], none)
        else
          (w', [ShutdownAction.killChild, ShutdownAction.waitChild],
            some ("Command exited with error: " ++ m ++ "\n"))
      | .otherFailure m =>
        (w', [ShutdownAction.killChild, ShutdownAction.waitChild],
          some ("Command exited with error: " ++ m ++ "\n"))

/-- Outcomes needed by `ForceShutdownDaemon`: the `pgrep` run behind
`oskit.TerminateProgram` (continuous mode) and the ephemeral-path outcomes
for the delegated `ShutdownDaemon` call. -/
structure ForceShutdownEnv where
  pgrepRun : CmdRunResult
  shutdown : ShutdownEnv
deriving DecidableEq

/-- Embedding of `(*ipfsCliWrapper).ForceShutdownDaemon`: in continuous mode
clear the running flag and terminate every same-named process by SIGTERM via
`oskit.TerminateProgram`; otherwise delegate to `ShutdownDaemon`. -/
def ForceShutdownDaemon (w : WrapperState) (env : ForceShutdownEnv) :
    WrapperState × List ShutdownAction × Option String :=
  if w.isDaemonRunningContinously then
    let w' := { w with isDaemonRunning := false }
    let r := TerminateProgram env.pgrepRun
    (w', ShutdownAction.pgrepLookup :: r.1, r.2)
  else
    ShutdownDaemon w env.shutdown

/-! ### Command adapter: AddFile -/

/-- Outcome of `cmd.CombinedOutput()`: on success the combined output text,
on failure the error together with whatever output was captured. -/
inductive CombinedOutputResult where
  | ok (output : String)
  | err (msg : String) (output : String)
deriving DecidableEq

/-- Loop of `AddFile` over the whitespace-split output tokens, carried state
`(cid, filename, foundAddedText)`: once `cid` is non-empty the next token is
the filename and the loop breaks; once the marker was seen the next token
becomes the cid; a token containing `"added"` as a substring sets the marker
flag. -/
def addScanGo : List String → String → String → Bool → String × String
  | [], cid, filename, _ => (cid, filename)
  | part :: rest, cid, filename, found =>
    if cid ≠ "" then (cid, part)
    else if found then addScanGo rest part filename found
    else if strContains part "added" then addScanGo rest cid filename true
    else addScanGo rest cid filename found

/-- The `(cid, filename)` pair `AddFile` extracts from a combined output. -/
def addScan (output : String) : String × String :=
  addScanGo (fields output) "" "" false

/-- Embedding of `(*ipfsCliWrapper).AddFile`: invoke `ipfs add`; on a run
failure wrap the error; on success parse the combined output with `addScan`
and return the extracted content identifier with a nil error. -/
def AddFile (run : CombinedOutputResult) : String × Option String :=
  match run with
  | .ok output => ((addScan output).1, none)
  | .err msg output =>
    ("", some ("failed to add file to ipfs: " ++ msg ++ ", output: " ++ output))

/-- Reading of the claim's parse rule, written from the spec sentence: scan
the token list for the first marker token and return the token immediately
after it (empty when the marker is last or absent).  `marker` is the claim's
notion of marker; the claim text asks for exact equality with `"added"`,
the source for substring containment. -/
def markerNextToken (marker : String → Bool) : List String → String
  | [] => ""
  | p :: rest =>
    if marker p then
      match rest with
      | [] => ""
      | c :: _ => c
    else markerNextToken marker rest

/-! ### Command adapter: ListPinsByType -/

/-- The pin-type label tokens the pin-list parser drops. -/
def ignorePartArr : List String := ["recursive", "indirect", "direct"]

/-- Inner loop of the `ListPinsByType` parser: scan the label tokens and
raise the ignore flag on an exact match. -/
def innerIgnore (part : String) (ignoreFound : Bool) : Bool :=
  ignorePartArr.foldl (fun acc ignorePart => if part == ignorePart then true else acc)
    ignoreFound

/-- Outer loop of the `ListPinsByType` parser: a token is kept unless the
inner loop flagged it; the flag is reset at the end of every iteration. -/
def pinsGo : List String → Bool → List String
  | [], _ => []
  | part :: rest, ignoreFound =>
    let ig := innerIgnore part ignoreFound
    (if !ig then [part] else []) ++ pinsGo rest false

/-- Embedding of `(*ipfsCliWrapper).ListPinsByType`: invoke
`ipfs pin ls --type=T --stream=true`; on a run failure wrap the error; on
success split the combined output into tokens and keep the ones the
label-token filter lets through. -/
def ListPinsByType (run : CombinedOutputResult) : Option (List String) × Option String :=
  match run with
  | .ok output => (some (pinsGo (fields output) false), none)
  | .err msg output =>
    (none, some ("failed to pin file content on ipfs: " ++ msg ++ ", output: " ++ output))

/-! ### Command adapter: AddFileContent (both variants) -/

/-- Filesystem and subprocess actions of the `AddFileContent` variants. -/
inductive FsAction where
  | create (path : String)
  | write (path : String)
  | close (path : String)
  | remove (path : String)
  | addCmd (path : String)
deriving DecidableEq

/-- Result of an `AddFileContent` run: the returned identifier and error,
plus the trace of filesystem/subprocess actions performed. -/
structure AddOutcome where
  cid : String
  err : Option String
  actions : List FsAction
deriving DecidableEq

/-- Outcomes of the filesystem interactions of `AddFileContent`:
`os.Create`, `File.Write`, `File.Close`, and the result of the delegated
`AddFile` call. -/
structure AddFcEnv where
  createErr : Option String
  writeErr : Option String
  closeErr : Option String
  addResult : String × Option String
deriving DecidableEq

/-- Embedding of `(*ipfsCliWrapper).AddFileContent` (the variant taking only
the content): reject a nil content slice; write the bytes to
`./ipfscliwrapper_tempfile_<random>`; register a deferred removal of that
file; delegate to `AddFile`; the deferred removal runs whether or not the
delegated call succeeded (a removal failure is only logged).  `fileContent`
is `none` for a nil Go slice. -/
def AddFileContent (fileContent : Option (List Nat)) (rand : String)
    (env : AddFcEnv) : AddOutcome :=
  match fileContent with
  | none => ⟨"", some "cannot have missing: fileContent", []⟩
  | some _ =>
    let path := "./ipfscliwrapper_tempfile_" ++ rand
    match env.createErr with
    | some m => ⟨"", some m, [FsAction.create path]⟩
    | none =>
      match env.writeErr with
      | some m => ⟨"", some m, [FsAction.create path, FsAction.write path]⟩
      | none =>
        match env.closeErr with
        | some m =>
          ⟨"", some m, [FsAction.create path, FsAction.write path, FsAction.close path]⟩
        | none =>
          match env.addResult with
          | (_, some m) =>
            ⟨"", some m,
              [FsAction.create path, FsAction.write path, FsAction.close path,
               FsAction.addCmd path, FsAction.remove path]⟩
          | (cid, none) =>
            ⟨cid, none,
              [FsAction.create path, FsAction.write path, FsAction.close path,
               FsAction.addCmd path, FsAction.remove path]⟩

/-- Embedding of `(*IpfsCliWrapper).AddFileContent` (the variant taking a
caller-chosen filename, from commands.go): reject an empty filename or nil
content; write the bytes to `./<filename>`; delegate to `AddFile`; remove the
file only after a successful delegated call (on a delegated failure the
function returns at once, leaving the file behind); a removal failure
returns the — at that point nil — delegated error. -/
def AddFileContentNamed (filename : String) (fileContent : Option (List Nat))
    (env : AddFcEnv) (removeErr : Option String) : AddOutcome :=
  if filename = "" then ⟨"", some "cannot have missing: filename", []⟩
  else
    match fileContent with
    | none => ⟨"", some "cannot have missing: fileContent", []⟩
    | some _ =>
      let path := "./" ++ filename
      match env.createErr with
      | some m => ⟨"", some m, [FsAction.create path]⟩
      | none =>
        match env.writeErr with
        | some m => ⟨"", some m, [FsAction.create path, FsAction.write path]⟩
        | none =>
          match env.closeErr with
          | some m =>
            ⟨"", some m, [FsAction.create path, FsAction.write path, FsAction.close path]⟩
          | none =>
            match env.addResult with
            | (_, some m) =>
              ⟨"", some m,
                [FsAction.create path, FsAction.write path, FsAction.close path,
                 FsAction.addCmd filename]⟩
            | (cid, none) =>
              match removeErr with
              | some _ =>
                ⟨"", none,
                  [FsAction.create path, FsAction.write path, FsAction.close path,
                   FsAction.addCmd filename, FsAction.remove path]⟩
              | none =>
                ⟨cid, none,
                  [FsAction.create path, FsAction.write path, FsAction.close path,
                   FsAction.addCmd filename, FsAction.remove path]⟩

/-! ### Provisioning: getDownloadURL -/

/-- The static download table of `getDownloadURL` (constants.go), keyed by
operating system and then architecture. -/
def urlsMap : List (String × List (String × String)) :=
  [("darwin",
    [("arm64", "https://dist.ipfs.tech/kubo/v0.29.0/kubo_v0.29.0_darwin-arm64.tar.gz"),
     ("amd64", "https://dist.ipfs.tech/kubo/v0.29.0/kubo_v0.29.0_darwin-amd64.tar.gz")]),
   ("linux",
    [("arm", "https://dist.ipfs.tech/kubo/v0.29.0/kubo_v0.29.0_linux-arm.tar.gz"),
     ("arm64", "https://dist.ipfs.tech/kubo/v0.29.0/kubo_v0.29.0_linux-arm64.tar.gz"),
     ("386", "https://dist.ipfs.tech/kubo/v0.29.0/kubo_v0.29.0_linux-386.tar.gz"),
     ("amd64", "https://dist.ipfs.tech/kubo/v0.29.0/kubo_v0.29.0_linux-amd64.tar.gz")]),
   ("freebsd",
    [("arm", "https://dist.ipfs.tech/kubo/v0.29.0/kubo_v0.29.0_freebsd-arm.tar.gz"),
     ("386", "https://dist.ipfs.tech/kubo/v0.29.0/kubo_v0.29.0_freebsd-386.tar.gz"),
     ("amd64", "https://dist.ipfs.tech/kubo/v0.29.0/kubo_v0.29.0_freebsd-amd64.tar.gz")]),
   ("openbsd",
    [("arm", "https://dist.ipfs.tech/kubo/v0.29.0/kubo_v0.29.0_openbsd-arm.tar.gz"),
     ("386", "https://dist.ipfs.tech/kubo/v0.29.0/kubo_v0.29.0_openbsd-386.tar.gz"),
     ("amd64", "https://dist.ipfs.tech/kubo/v0.29.0/kubo_v0.29.0_openbsd-amd64.tar.gz")]),
   ("windows",
    [("arm", "https://dist.ipfs.tech/kubo/v0.29.0/kubo_v0.29.0_windows-arm64.zip"),
     ("386", "https://dist.ipfs.tech/kubo/v0.29.0/kubo_v0.29.0_windows-386.zip"),
     ("amd64", "https://dist.ipfs.tech/kubo/v0.29.0/kubo_v0.29.0_windows-amd64.zip")])]

/-- The two-level map lookup `urlsMap[os][arch]` with its ok flag (a missing
outer key behaves like a missing inner key, as indexing a nil Go map does). -/
def lookupURL (os arch : String) : Option String :=
  (urlsMap.lookup os).bind (fun m => m.lookup arch)

/-- Embedding of `getDownloadURL` (constants.go): a pure table lookup —
no network or disk interaction exists on any path — returning the URL, or an
empty string with an unsupported-platform error. -/
def getDownloadURL (os arch : String) : String × Option String :=
  match lookupURL os arch with
  | some val => (val, none)
  | none =>
    ("", some ("could not find downloadable link for operating system `" ++ os
        ++ "` and architecture `" ++ arch ++ "`"))

/-! ### Helper lemmas -/

/-- Exhaustive branch analysis of `StartDaemonInBackground`: every run either
returns a nil error or leaves the wrapper state untouched. -/
theorem startDaemon_cases (w : WrapperState) (env : StartEnv) :
    (StartDaemonInBackground w env).2.2 = none ∨
      (StartDaemonInBackground w env).1 = w := by
  unfold StartDaemonInBackground
  dsimp only
  split
  · split
    · exact Or.inl rfl
    · exact Or.inr rfl
  · split
    · exact Or.inr rfl
    · split
      · exact Or.inr rfl
      · exact Or.inl rfl

/-! ### Claim theorems -/

/-- Claim C1: whenever the process-name lookup reports an `ipfs` process
already running, `StartDaemonInBackground` sets the running flag, returns a
nil error, and never starts a child process. -/
theorem startDaemon_adopts_running (w : WrapperState) (env : StartEnv)
    (h : (IsProgramRunning env.pgrepRun).1 = true) :
    (StartDaemonInBackground w env).1.isDaemonRunning = true ∧
    (StartDaemonInBackground w env).2.2 = none ∧
    StartAction.startChild ∉ (StartDaemonInBackground w env).2.1 := by
  simp [StartDaemonInBackground, h]

/-- Witness for C1: a `pgrep` run that prints a process id. -/
theorem startDaemon_adopts_running_witness :
    (StartDaemonInBackground ⟨false, false⟩
        ⟨CmdRunResult.ok " 42\n", none, none⟩).1.isDaemonRunning = true ∧
    (StartDaemonInBackground ⟨false, false⟩
        ⟨CmdRunResult.ok " 42\n", none, none⟩).2.2 = none ∧
    StartAction.startChild ∉ (StartDaemonInBackground ⟨false, false⟩
        ⟨CmdRunResult.ok " 42\n", none, none⟩).2.1 :=
  startDaemon_adopts_running ⟨false, false⟩ ⟨CmdRunResult.ok " 42\n", none, none⟩
    (by decide)

/-- Claim C2: in continuous mode `ShutdownDaemon` returns a nil error,
performs no OS action at all (no signal, no wait — terminating the daemon is
left to `ForceShutdownDaemon`), and leaves every state flag unchanged. -/
theorem shutdownDaemon_continuous_noop (w : WrapperState) (env : ShutdownEnv)
    (h : w.isDaemonRunningContinously = true) :
    ShutdownDaemon w env = (w, [], none) := by
  simp [ShutdownDaemon, h]

/-- Witness for C2: a continuous-mode wrapper. -/
theorem shutdownDaemon_continuous_noop_witness :
    ShutdownDaemon ⟨true, true⟩ ⟨none, WaitResult.ok⟩ = (⟨true, true⟩, [], none) :=
  shutdownDaemon_continuous_noop ⟨true, true⟩ ⟨none, WaitResult.ok⟩ rfl

/-- Claim C3: in ephemeral mode `ShutdownDaemon` clears the running flag on
every path — in particular before the kill signal can fail — still attempts
the kill, treats a wait failure with exit code `-1` (death by signal) as
success, and surfaces every other wait failure. -/
theorem shutdownDaemon_ephemeral_signal_paths (w : WrapperState) (env : ShutdownEnv)
    (h : w.isDaemonRunningContinously = false) :
    (ShutdownDaemon w env).1.isDaemonRunning = false ∧
    ShutdownAction.killChild ∈ (ShutdownDaemon w env).2.1 ∧
    (env.killErr = none →
      (∀ m, env.wait = WaitResult.exitFailure (-1) m →
        (ShutdownDaemon w env).2.2 = none) ∧
      (∀ code m, env.wait = WaitResult.exitFailure code m → code ≠ -1 →
        (ShutdownDaemon w env).2.2 =
          some ("Command exited with error: " ++ m ++ "\n")) ∧
      (∀ m, env.wait = WaitResult.otherFailure m →
        (ShutdownDaemon w env).2.2 =
          some ("Command exited with error: " ++ m ++ "\n"))) := by
  refine ⟨?_, ?_, ?_⟩
  · cases hk : env.killErr <;> cases hw : env.wait <;>
      simp [ShutdownDaemon, h, hk, hw] <;> split <;> simp
  · cases hk : env.killErr <;> cases hw : env.wait <;>
      simp [ShutdownDaemon, h, hk, hw] <;> split <;> simp
  · intro hk
    refine ⟨?_, ?_, ?_⟩
    · intro m hw; simp [ShutdownDaemon, h, hk, hw]
    · intro code m hw hcode; simp [ShutdownDaemon, h, hk, hw, hcode]
    · intro m hw; simp [ShutdownDaemon, h, hk, hw]

/-- Witness for C3: an ephemeral wrapper whose child dies by signal (exit
code `-1`), the expected success path. -/
theorem shutdownDaemon_ephemeral_signal_paths_witness :
    (ShutdownDaemon ⟨true, false⟩
        ⟨none, WaitResult.exitFailure (-1) "signal: killed"⟩).1.isDaemonRunning = false ∧
    (ShutdownDaemon ⟨true, false⟩
        ⟨none, WaitResult.exitFailure (-1) "signal: killed"⟩).2.2 = none :=
  ⟨(shutdownDaemon_ephemeral_signal_paths ⟨true, false⟩
      ⟨none, WaitResult.exitFailure (-1) "signal: killed"⟩ rfl).1,
   ((shutdownDaemon_ephemeral_signal_paths ⟨true, false⟩
      ⟨none, WaitResult.exitFailure (-1) "signal: killed"⟩ rfl).2.2 rfl).1
      "signal: killed" rfl⟩

/-- Claim C7: whenever `StartDaemonInBackground` returns an error — be it
from the process-presence check, the null-device open of the detach block, or
the child start — the running flag is left unchanged; started from the
initial `NotStarted` state it therefore remains false. -/
theorem startDaemon_error_preserves_flag (w : WrapperState) (env : StartEnv)
    (h : (StartDaemonInBackground w env).2.2 ≠ none) :
    (StartDaemonInBackground w env).1.isDaemonRunning = w.isDaemonRunning := by
  rcases startDaemon_cases w env with hc | hc
  · exact absurd hc h
  · rw [hc]

/-- Witness for C7: a failing `pgrep` run (exit status 2). -/
theorem startDaemon_error_preserves_flag_witness :
    (StartDaemonInBackground ⟨false, false⟩
        ⟨CmdRunResult.exitFailure 2 "pgrep: fault", none, none⟩).1.isDaemonRunning
      = (⟨false, false⟩ : WrapperState).isDaemonRunning :=
  startDaemon_error_preserves_flag ⟨false, false⟩
    ⟨CmdRunResult.exitFailure 2 "pgrep: fault", none, none⟩ (by decide)

/-- A successful association-list lookup finds a pair of the list. -/
theorem lookup_eq_some_mem {β : Type} (a : String) (b : β) :
    ∀ l : List (String × β), l.lookup a = some b → (a, b) ∈ l := by
  intro l
  induction l with
  | nil => intro h; simp [List.lookup] at h
  | cons p t ih =>
    obtain ⟨k, v⟩ := p
    intro h
    by_cases hak : a = k
    · subst hak
      simp [List.lookup] at h
      subst h
      exact List.mem_cons_self _ _
    · have hbeq : (a == k) = false := beq_eq_false_iff_ne.mpr hak
      rw [List.lookup, hbeq] at h
      exact List.mem_cons_of_mem _ (ih h)

/-- Every URL value of the static download table is non-empty. -/
theorem urlsMap_values_nonempty :
    urlsMap.all (fun p => p.2.all (fun q => !(q.2 == ""))) = true := by decide

/-- Claim C6: `getDownloadURL` is a pure lookup into the static table — on a
pair present in the table it returns that (non-empty) URL and a nil error; on
any absent pair it returns the empty string and the unsupported-platform
error, with no other interaction possible. -/
theorem getDownloadURL_static_table (os arch : String) :
    (∀ url, lookupURL os arch = some url →
      getDownloadURL os arch = (url, none) ∧ url ≠ "") ∧
    (lookupURL os arch = none →
      getDownloadURL os arch =
        ("", some ("could not find downloadable link for operating system `" ++ os
          ++ "` and architecture `" ++ arch ++ "`"))) := by
  constructor
  · intro url h
    refine ⟨by simp [getDownloadURL, h], ?_⟩
    cases ho : urlsMap.lookup os with
    | none => rw [lookupURL, ho] at h; simp at h
    | some m =>
      rw [lookupURL, ho] at h
      simp only [Option.some_bind] at h
      have h1 : (os, m) ∈ urlsMap := lookup_eq_some_mem os m urlsMap ho
      have h2 : (arch, url) ∈ m := lookup_eq_some_mem arch url m h
      have hall := List.all_eq_true.mp urlsMap_values_nonempty (os, m) h1
      have hurl := List.all_eq_true.mp hall (arch, url) h2
      simpa using hurl
  · intro h
    simp [getDownloadURL, h]

/-- Witness for C6: the (linux, amd64) pair resolves to its table URL; the
unsupported (plan9, mips) pair yields an empty URL with an error. -/
theorem getDownloadURL_static_table_witness :
    getDownloadURL "linux" "amd64" =
      ("https://dist.ipfs.tech/kubo/v0.29.0/kubo_v0.29.0_linux-amd64.tar.gz", none) ∧
    ("https://dist.ipfs.tech/kubo/v0.29.0/kubo_v0.29.0_linux-amd64.tar.gz" : String) ≠ "" ∧
    getDownloadURL "plan9" "mips" =
      ("", some ("could not find downloadable link for operating system `plan9`"
        ++ " and architecture `mips`")) :=
  ⟨((getDownloadURL_static_table "linux" "amd64").1 _ (by decide)).1,
   ((getDownloadURL_static_table "linux" "amd64").1 _ (by decide)).2,
   by
    have := (getDownloadURL_static_table "plan9" "mips").2 (by decide)
    simpa using this⟩

/-- On a token list whose every element parses as a process id, `signalPids`
succeeds, SIGTERMs exactly the parsed ids, and performs no kill or wait. -/
theorem signalPids_all_parse (l : List String)
    (h : ∀ t ∈ l, (atoi? t).isSome) :
    (signalPids l).2 = none ∧
    (∀ pid : Int, ShutdownAction.sigterm pid ∈ (signalPids l).1 ↔
      ∃ t ∈ l, atoi? t = some pid) ∧
    ShutdownAction.killChild ∉ (signalPids l).1 ∧
    ShutdownAction.waitChild ∉ (signalPids l).1 := by
  induction l with
  | nil => simp [signalPids]
  | cons p rest ih =>
    have hp := h p (by simp)
    obtain ⟨pid0, hpid⟩ := Option.isSome_iff_exists.mp hp
    obtain ⟨ih1, ih2, ih3, ih4⟩ := ih (fun t ht => h t (by simp [ht]))
    refine ⟨?_, ?_, ?_, ?_⟩
    · simpa [signalPids, hpid] using ih1
    · intro pid
      constructor
      · intro hmem
        simp only [signalPids, hpid, List.mem_cons] at hmem
        rcases hmem with heq | hmem
        · exact ⟨p, by simp, by simp at heq; rw [hpid, heq]⟩
        · obtain ⟨t, ht, hat⟩ := (ih2 pid).mp hmem
          exact ⟨t, by simp [ht], hat⟩
      · intro hex
        obtain ⟨t, ht, hat⟩ := hex
        simp only [List.mem_cons] at ht
        rcases ht with rfl | ht
        · have : pid0 = pid := by rw [hpid] at hat; exact Option.some.inj hat
          simp [signalPids, hpid, this]
        · have := (ih2 pid).mpr ⟨t, ht, hat⟩
          simp [signalPids, hpid, this]
    · simpa [signalPids, hpid] using ih3
    · simpa [signalPids, hpid] using ih4

/-- Claim C8: in continuous mode `ForceShutdownDaemon` clears the running
flag (even before the lookup can fail), and — when the `pgrep` run succeeds
and its tokens parse — SIGTERMs exactly the matching process ids, with no
unconditional kill and no wait on process exit; in ephemeral mode it is
exactly `ShutdownDaemon`. -/
theorem forceShutdown_by_mode (w : WrapperState) (env : ForceShutdownEnv) :
    (w.isDaemonRunningContinously = true →
      (ForceShutdownDaemon w env).1.isDaemonRunning = false ∧
      (∀ out, env.pgrepRun = CmdRunResult.ok out →
        (∀ t ∈ fields out, (atoi? t).isSome) →
        (ForceShutdownDaemon w env).2.2 = none ∧
        (∀ pid : Int, ShutdownAction.sigterm pid ∈ (ForceShutdownDaemon w env).2.1 ↔
          ∃ t ∈ fields out, atoi? t = some pid) ∧
        ShutdownAction.killChild ∉ (ForceShutdownDaemon w env).2.1 ∧
        ShutdownAction.waitChild ∉ (ForceShutdownDaemon w env).2.1)) ∧
    (w.isDaemonRunningContinously = false →
      ForceShutdownDaemon w env = ShutdownDaemon w env.shutdown) := by
  constructor
  · intro hc
    constructor
    · simp [ForceShutdownDaemon, hc]
    · intro out hout hparse
      obtain ⟨h1, h2, h3, h4⟩ := signalPids_all_parse (fields out) hparse
      refine ⟨?_, ?_, ?_, ?_⟩
      · simpa [ForceShutdownDaemon, hc, TerminateProgram, hout] using h1
      · intro pid
        simpa [ForceShutdownDaemon, hc, TerminateProgram, hout] using h2 pid
      · simpa [ForceShutdownDaemon, hc, TerminateProgram, hout] using h3
      · simpa [ForceShutdownDaemon, hc, TerminateProgram, hout] using h4
  · intro hc
    simp [ForceShutdownDaemon, hc]

/-- Witness for C8: a continuous-mode wrapper whose `pgrep` run lists process
ids 101 and 202 gets both SIGTERMed with a nil error. -/
theorem forceShutdown_by_mode_witness :
    (ForceShutdownDaemon ⟨true, true⟩
        ⟨CmdRunResult.ok "101 202\n", ⟨none, WaitResult.ok⟩⟩).1.isDaemonRunning = false ∧
    (ForceShutdownDaemon ⟨true, true⟩
        ⟨CmdRunResult.ok "101 202\n", ⟨none, WaitResult.ok⟩⟩).2.2 = none ∧
    ShutdownAction.sigterm 101 ∈ (ForceShutdownDaemon ⟨true, true⟩
        ⟨CmdRunResult.ok "101 202\n", ⟨none, WaitResult.ok⟩⟩).2.1 :=
  ⟨((forceShutdown_by_mode ⟨true, true⟩
      ⟨CmdRunResult.ok "101 202\n", ⟨none, WaitResult.ok⟩⟩).1 rfl).1,
   (((forceShutdown_by_mode ⟨true, true⟩
      ⟨CmdRunResult.ok "101 202\n", ⟨none, WaitResult.ok⟩⟩).1 rfl).2 "101 202\n" rfl
      (by decide)).1,
   ((((forceShutdown_by_mode ⟨true, true⟩
      ⟨CmdRunResult.ok "101 202\n", ⟨none, WaitResult.ok⟩⟩).1 rfl).2 "101 202\n" rfl
      (by decide)).2.1 101).mpr ⟨"101", by decide, by decide⟩⟩

/-- Claim C10: both `AddFileContent` variants reject a nil content slice —
and the named variant additionally an empty filename — with an empty
identifier and a non-nil error while their action trace stays empty: nothing
is created, written or invoked. -/
theorem addFileContent_rejects_missing_inputs :
    (∀ rand env, AddFileContent none rand env =
      ⟨"", some "cannot have missing: fileContent", []⟩) ∧
    (∀ content env removeErr, AddFileContentNamed "" content env removeErr =
      ⟨"", some "cannot have missing: filename", []⟩) ∧
    (∀ filename env removeErr,
      (AddFileContentNamed filename none env removeErr).cid = "" ∧
      (AddFileContentNamed filename none env removeErr).err.isSome = true ∧
      (AddFileContentNamed filename none env removeErr).actions = []) := by
  refine ⟨fun rand env => rfl, fun content env removeErr => rfl, ?_⟩
  intro filename env removeErr
  by_cases hf : filename = "" <;> simp [AddFileContentNamed, hf]

/-- Once the cid is non-empty the scan returns it unchanged. -/
theorem addScanGo_cid_set (rest : List String) (cid filename : String) (b : Bool)
    (h : cid ≠ "") : (addScanGo rest cid filename b).1 = cid := by
  cases rest with
  | nil => rfl
  | cons p r => simp [addScanGo, h]

/-- Right after the marker was seen, the scan returns the next token (empty
when there is none), provided no token is empty. -/
theorem addScanGo_after_marker (rest : List String) (filename : String)
    (h : ∀ t ∈ rest, t ≠ "") :
    (addScanGo rest "" filename true).1 = rest.headD "" := by
  cases rest with
  | nil => rfl
  | cons c r =>
    have hc : c ≠ "" := h c (by simp)
    simp [addScanGo, addScanGo_cid_set r c filename true hc]

/-- On non-empty tokens the `AddFile` scan extracts the token following the
first token that contains `"added"` as a substring. -/
theorem addScanGo_scan (parts : List String) (filename : String)
    (h : ∀ t ∈ parts, t ≠ "") :
    (addScanGo parts "" filename false).1 =
      markerNextToken (fun t => strContains t "added") parts := by
  induction parts with
  | nil => rfl
  | cons p rest ih =>
    have hrest : ∀ t ∈ rest, t ≠ "" := fun t ht => h t (by simp [ht])
    by_cases hm : strContains p "added" = true
    · cases rest with
      | nil => simp [addScanGo, markerNextToken, hm]
      | cons c r =>
        have hc : c ≠ "" := hrest c (by simp)
        simp [addScanGo, markerNextToken, hm, hc,
          addScanGo_cid_set r c filename true hc]
    · have hm' : strContains p "added" = false := by
        cases hb : strContains p "added"
        · rfl
        · exact absurd hb hm
      rw [addScanGo]
      simp [markerNextToken, hm']
      exact ih hrest

/-- A marker-free token list yields the empty extraction. -/
theorem markerNextToken_of_none (marker : String → Bool) (l : List String)
    (h : ∀ t ∈ l, marker t = false) : markerNextToken marker l = "" := by
  induction l with
  | nil => rfl
  | cons p rest ih =>
    simp only [markerNextToken]
    simp only [h p (by simp), Bool.false_eq_true, if_false]
    exact ih (fun t ht => h t (by simp [ht]))

/-- Counterexample to claim C4 as stated: on the output `"xadded QmFoo bar"`
no whitespace-split token equals the literal `"added"`, yet `AddFile` does
not return an empty identifier — it takes `"xadded"` (substring match) as the
marker and returns the following token `"QmFoo"`. -/
theorem addFile_literal_marker_cx :
    (fields "xadded QmFoo bar").all (fun t => !(t == "added")) = true ∧
    AddFile (CombinedOutputResult.ok "xadded QmFoo bar") = ("QmFoo", none) := by
  constructor
  · decide
  · decide

/-- Claim C4 (amended): on the success path `AddFile` scans the
whitespace-split tokens for the first token *containing* `"added"` as a
substring, returns the token immediately after it as the identifier, and when
no token contains `"added"` returns an empty identifier with a nil error. -/
theorem addFile_parse_contains_marker (output : String) :
    AddFile (CombinedOutputResult.ok output) =
      (markerNextToken (fun t => strContains t "added") (fields output), none) ∧
    ((∀ t ∈ fields output, strContains t "added" = false) →
      AddFile (CombinedOutputResult.ok output) = ("", none)) := by
  have hmain : AddFile (CombinedOutputResult.ok output) =
      (markerNextToken (fun t => strContains t "added") (fields output), none) := by
    rw [AddFile]
    rw [addScan, addScanGo_scan (fields output) "" (fields_ne_empty output)]
  refine ⟨hmain, fun hnone => ?_⟩
  rw [hmain, markerNextToken_of_none _ _ hnone]

/-- Witness for C4 (amended): a marker output yields the following token, a
marker-free output yields the empty identifier, both with nil errors. -/
theorem addFile_parse_contains_marker_witness :
    AddFile (CombinedOutputResult.ok "added QmBar f.txt") = ("QmBar", none) ∧
    AddFile (CombinedOutputResult.ok "nothing here") = ("", none) :=
  ⟨(addFile_parse_contains_marker "added QmBar f.txt").1.trans (by decide),
   (addFile_parse_contains_marker "nothing here").2 (by decide)⟩

/-- The inner label scan raises the flag exactly on the three label
tokens. -/
theorem innerIgnore_eq (part : String) (b : Bool) :
    innerIgnore part b =
      (b || (part == "recursive" || part == "indirect" || part == "direct")) := by
  simp only [innerIgnore, ignorePartArr, List.foldl]
  cases hb : b <;> cases h1 : part == "recursive" <;> cases h2 : part == "indirect" <;>
    cases h3 : part == "direct" <;> simp [h1, h2, h3]

/-- The pin-list loop is a plain filter dropping the three label tokens. -/
theorem pinsGo_filter (l : List String) :
    pinsGo l false = l.filter
      (fun t => !(t == "recursive" || t == "indirect" || t == "direct")) := by
  induction l with
  | nil => rfl
  | cons p rest ih =>
    rw [pinsGo]
    simp only [innerIgnore_eq, Bool.false_or, ih, List.filter]
    cases h : (p == "recursive" || p == "indirect" || p == "direct") <;> simp [h]

/-- Claim C5: on the success path `ListPinsByType` returns exactly the
whitespace-split tokens of the output with every token equal to
`"recursive"`, `"indirect"` or `"direct"` removed, in order; in particular no
returned entry is one of those three label tokens. -/
theorem listPins_drops_label_tokens (output : String) :
    ListPinsByType (CombinedOutputResult.ok output) =
      (some ((fields output).filter
        (fun t => !(t == "recursive" || t == "indirect" || t == "direct"))), none) ∧
    ((ListPinsByType (CombinedOutputResult.ok output)).1.getD []).all
      (fun t => !(t == "recursive" || t == "indirect" || t == "direct")) = true := by
  have hmain : ListPinsByType (CombinedOutputResult.ok output) =
      (some ((fields output).filter
        (fun t => !(t == "recursive" || t == "indirect" || t == "direct"))), none) := by
    rw [ListPinsByType]
    rw [pinsGo_filter]
  refine ⟨hmain, ?_⟩
  rw [hmain]
  simp only [Option.getD_some]
  rw [List.all_eq_true]
  intro x hx
  exact (List.mem_filter.mp hx).2

/-- Counterexample to claim C9 as stated: in the named variant
(commands.go), when the delegated `AddFile` call fails the temporary file
`./f` is *not* removed — the function returns at once with the error and the
removal never appears in the action trace. -/
theorem addFileContentNamed_skips_cleanup_cx :
    (AddFileContentNamed "f" (some [1])
        ⟨none, none, none, ("", some "boom")⟩ none).err = some "boom" ∧
    FsAction.remove "./f" ∉ (AddFileContentNamed "f" (some [1])
        ⟨none, none, none, ("", some "boom")⟩ none).actions := by
  constructor
  · decide
  · decide

/-- Claim C9 (amended): the random-temp-file variant of `AddFileContent`
writes the content, delegates to `AddFile` and removes the temporary file
regardless of the delegated outcome (no hypothesis on `env.addResult` below);
the named variant removes its file exactly when the delegated call
succeeds. -/
theorem addFileContent_cleanup_semantics (content : List Nat)
    (rand filename : String) (env env2 : AddFcEnv) (removeErr : Option String)
    (hc : env.createErr = none) (hw : env.writeErr = none) (hcl : env.closeErr = none)
    (hc2 : env2.createErr = none) (hw2 : env2.writeErr = none)
    (hcl2 : env2.closeErr = none) :
    (AddFileContent (some content) rand env).actions =
      [FsAction.create ("./ipfscliwrapper_tempfile_" ++ rand),
       FsAction.write ("./ipfscliwrapper_tempfile_" ++ rand),
       FsAction.close ("./ipfscliwrapper_tempfile_" ++ rand),
       FsAction.addCmd ("./ipfscliwrapper_tempfile_" ++ rand),
       FsAction.remove ("./ipfscliwrapper_tempfile_" ++ rand)] ∧
    (filename ≠ "" →
      (FsAction.remove ("./" ++ filename) ∈
          (AddFileContentNamed filename (some content) env2 removeErr).actions ↔
        env2.addResult.2 = none)) := by
  constructor
  · rw [AddFileContent]
    rw [hc, hw, hcl]
    rcases har : env.addResult with ⟨cid, addErr⟩
    cases addErr <;> rfl
  · intro hf
    rw [AddFileContentNamed]
    simp only [hf, if_false, hc2, hw2, hcl2]
    rcases har : env2.addResult with ⟨cid, addErr⟩
    cases addErr with
    | none =>
      cases removeErr <;> simp
    | some m =>
      simp

/-- Witness for C9 (amended): concrete runs of both variants, the delegated
call failing in the first and succeeding in the second. -/
theorem addFileContent_cleanup_semantics_witness :
    (AddFileContent (some [1]) "ab3de"
        ⟨none, none, none, ("", some "boom")⟩).actions =
      [FsAction.create "./ipfscliwrapper_tempfile_ab3de",
       FsAction.write "./ipfscliwrapper_tempfile_ab3de",
       FsAction.close "./ipfscliwrapper_tempfile_ab3de",
       FsAction.addCmd "./ipfscliwrapper_tempfile_ab3de",
       FsAction.remove "./ipfscliwrapper_tempfile_ab3de"] ∧
    (FsAction.remove "./g" ∈ (AddFileContentNamed "g" (some [1])
        ⟨none, none, none, ("QmZ", none)⟩ none).actions ↔
      (("QmZ", (none : Option String)) : String × Option String).2 = none) :=
  ⟨(addFileContent_cleanup_semantics [1] "ab3de" "g"
      ⟨none, none, none, ("", some "boom")⟩ ⟨none, none, none, ("QmZ", none)⟩ none
      rfl rfl rfl rfl rfl rfl).1,
   (addFileContent_cleanup_semantics [1] "ab3de" "g"
      ⟨none, none, none, ("", some "boom")⟩ ⟨none, none, none, ("QmZ", none)⟩ none
      rfl rfl rfl rfl rfl rfl).2 (by decide)⟩

end IpfsCliWrapper
